import Mathlib

/-!
Verification of the todo-list core of `src/App.tsx` (a React todo
application). The embedding below translates the data model and the
operations of the `useTodos` hook and the `Home` form handler into Lean.

The persistence layer is modelled at the JSON-value level: the platform
functions `JSON.parse` and `JSON.stringify` are external to the repository,
so a stored blob is represented by the outcome of parsing it (absent key,
string rejected by the parser, or the parsed JSON tree). `JSON.stringify`
followed by `JSON.parse` is the identity on trees of objects, arrays,
strings and booleans, which is the standard contract of those platform
functions and all the code relies on.
-/

/-- The `Todo` record of App.tsx line 10:
`export type Todo = { id: string; title: string; completed: boolean }`. -/
structure Todo where
  id : String
  title : String
  completed : Bool
deriving DecidableEq, Repr

/-- A JSON value, as produced by the platform `JSON.parse`. Numbers are
modelled as integers; the claims only need some numeric value that is not
a record, so the inexactness of JavaScript floats never matters here. -/
inductive Json where
  | null : Json
  | bool : Bool → Json
  | num : Int → Json
  | str : String → Json
  | arr : List Json → Json
  | obj : List (String × Json) → Json
deriving Repr

/-- Outcome of `JSON.parse(localStorage.getItem(STORAGE_KEY) || "[]")`
(App.tsx line 169):
* `absent` — the key is missing (or holds the empty string), so the
  `|| "[]"` fallback is parsed instead, yielding the empty array;
* `malformed` — the stored string is rejected by `JSON.parse`, which
  throws (caught by the surrounding `try`);
* `parsed j` — the stored string is accepted, yielding the JSON value `j`. -/
inductive Stored where
  | absent : Stored
  | malformed : Stored
  | parsed : Json → Stored

/-- The `useTodos` state initializer (App.tsx lines 167-173):
`try { const saved = JSON.parse(localStorage.getItem(STORAGE_KEY) || "[]");`
`if (Array.isArray(saved)) return saved as Todo[]; } catch {} return [];`
The `absent` case parses the fallback `"[]"`, an array, and returns its
(no) elements. A parse exception or a non-array value yields `[]`. When the
value is an array its elements are returned unchanged: `as Todo[]` is a
TypeScript cast with no runtime check, so the result holds the raw parsed
elements, which is why this function returns `List Json`. -/
def load : Stored → List Json
  | Stored.absent => []
  | Stored.malformed => []
  | Stored.parsed (Json.arr xs) => xs
  | Stored.parsed _ => []

/-- The JSON value `JSON.stringify` produces for one `Todo` record
(field order as in the object literal of App.tsx line 179). -/
def todoToJson (t : Todo) : Json :=
  Json.obj [("id", Json.str t.id), ("title", Json.str t.title),
            ("completed", Json.bool t.completed)]

/-- The persistence write of App.tsx line 176,
`localStorage.setItem(STORAGE_KEY, JSON.stringify(todos))`, described by
the outcome of parsing the stored string back: `JSON.stringify` of an
array of plain records is accepted by `JSON.parse` and yields the same
tree (platform round-trip contract, see the file comment). -/
def write (todos : List Todo) : Stored :=
  Stored.parsed (Json.arr (todos.map todoToJson))

/-- JavaScript property access `j.k` on a parsed JSON value: defined on
objects (first field of that name), absent otherwise. -/
def Json.getField : Json → String → Option Json
  | Json.obj fields, k => fields.lookup k
  | _, _ => none

/-- How the application consumes one loaded array element as a `Todo`:
reading `t.id`, `t.title`, `t.completed` succeeds exactly when the three
fields are present with their primitive types. -/
def readTodo (j : Json) : Option Todo :=
  match j.getField "id", j.getField "title", j.getField "completed" with
  | some (Json.str i), some (Json.str s), some (Json.bool c) => some ⟨i, s, c⟩
  | _, _, _ => none

/-- Whether a JSON value is an array: `Array.isArray(saved)` of App.tsx
line 170. -/
def Json.isArr : Json → Bool
  | Json.arr _ => true
  | _ => false

/-- `addTodo` (App.tsx line 179):
`setTodos((curr) => [{ id: uid(), title, completed: false }, ...curr])`.
The identifier produced by `uid()` (line 64, `Math.random` plus
`Date.now`, both platform nondeterminism) is passed in as `newId`;
the spec's contract for the generator — fresh with overwhelming
probability — becomes an explicit hypothesis where uniqueness is proved. -/
def addTodo (newId title : String) (curr : List Todo) : List Todo :=
  { id := newId, title := title, completed := false } :: curr

/-- `removeTodo` (App.tsx line 180):
`setTodos((curr) => curr.filter((t) => t.id !== id))`. -/
def removeTodo (i : String) (curr : List Todo) : List Todo :=
  curr.filter fun t => t.id != i

/-- `toggleTodo` (App.tsx line 181): `setTodos((curr) => curr.map((t) =>`
`(t.id === id ? { ...t, completed: !t.completed } : t)))`. -/
def toggleTodo (i : String) (curr : List Todo) : List Todo :=
  curr.map fun t => if t.id == i then { t with completed := !t.completed } else t

/-- The ids of a list, in order. -/
def idsOf (todos : List Todo) : List String :=
  todos.map Todo.id

/-- A sequence of `addTodo` calls, oldest first: each entry is the
generated id paired with the submitted title. -/
def addAll (entries : List (String × String)) (curr : List Todo) : List Todo :=
  entries.foldl (fun acc e => addTodo e.1 e.2 acc) curr

/-- The derived completed count of App.tsx line 192:
`todos.filter((t) => t.completed).length`. -/
def completedCount (todos : List Todo) : Nat :=
  (todos.filter fun t => t.completed).length

/-- The `{completed}/{todos.length} done` pair rendered at App.tsx
line 217: completed count and total, both computed from the current list. -/
def doneDisplay (todos : List Todo) : Nat × Nat :=
  (completedCount todos, todos.length)

/-- The whitespace removed by `String.prototype.trim`: ECMA-262's
TrimString strips the WhiteSpace and LineTerminator productions, i.e.
TAB, LF, VT, FF, CR, SP, NBSP U+00A0, U+1680, the Zs space separators
U+2000..U+200A, the line separators LS U+2028 and PS U+2029, U+202F,
U+205F, U+3000 and ZWNBSP U+FEFF. -/
def jsWhitespace (c : Char) : Bool :=
  c == '\t' || c == '\n' || c == '\x0b' || c == '\x0c' || c == '\r' ||
  c == ' ' || c == '\xa0' || c == ' ' ||
  c == ' ' || c == ' ' || c == ' ' || c == ' ' ||
  c == ' ' || c == ' ' || c == ' ' || c == ' ' ||
  c == ' ' || c == ' ' || c == ' ' ||
  c == ' ' || c == ' ' ||
  c == ' ' || c == ' ' || c == '　' || c == '﻿'

/-- `value.trim()`: remove leading and trailing whitespace. -/
def jsTrim (s : String) : String :=
  ⟨((s.data.dropWhile jsWhitespace).reverse.dropWhile jsWhitespace).reverse⟩

/-- The `onSubmit` form handler of App.tsx lines 194-200:
`const v = value.trim(); if (!v) return; addTodo(v); setValue("");`
(an empty string is falsy, so `!v` rejects a blank trimmed value).
Returns the new list together with the new input-field value; `genId` is
the id `uid()` generates when `addTodo` runs. -/
def onSubmit (genId value : String) (todos : List Todo) : List Todo × String :=
  let v := jsTrim value
  if v = "" then (todos, value) else (addTodo genId v todos, "")

/-- Serialization then consumption of a single record is the identity. -/
theorem readTodo_todoToJson (t : Todo) : readTodo (todoToJson t) = some t := rfl

/-- An id absent from the list differs from every element's id. -/
theorem ids_bne_of_not_mem {i : String} {L : List Todo} (h : i ∉ idsOf L) :
    ∀ a ∈ L, (a.id != i) = true := by
  intro a ha
  rw [bne_iff_ne]
  exact fun e => h (by simpa [idsOf, e] using List.mem_map_of_mem Todo.id ha)

/-- Removing an id that is not present leaves the list unchanged. -/
theorem remove_miss (i : String) (L : List Todo) (h : i ∉ idsOf L) :
    removeTodo i L = L :=
  List.filter_eq_self.mpr (ids_bne_of_not_mem h)

/-- Removing the sole occurrence of an id deletes exactly that element. -/
theorem remove_decomp (i : String) (pre suf : List Todo) (t : Todo)
    (ht : t.id = i) (hpre : i ∉ idsOf pre) (hsuf : i ∉ idsOf suf) :
    removeTodo i (pre ++ t :: suf) = pre ++ suf := by
  rw [removeTodo, List.filter_append, List.filter_cons]
  rw [List.filter_eq_self.mpr (ids_bne_of_not_mem hpre),
      List.filter_eq_self.mpr (ids_bne_of_not_mem hsuf)]
  simp [ht]

/-- Pointwise description of `toggleTodo`: position by position, the item
is flipped when its id matches and kept otherwise. -/
theorem toggle_pointwise (i : String) (L : List Todo) :
    List.Forall₂
      (fun a b => b = if a.id = i then { a with completed := !a.completed } else a)
      L (toggleTodo i L) := by
  rw [toggleTodo, List.forall₂_map_right_iff, List.forall₂_same]
  intro x _
  by_cases h : x.id = i <;> simp [h]

/-- Toggling an id that is not present leaves the list unchanged. -/
theorem toggle_miss (i : String) (L : List Todo) (h : i ∉ idsOf L) :
    toggleTodo i L = L := by
  rw [toggleTodo]
  have step : ∀ t ∈ L,
      (if t.id == i then { t with completed := !t.completed } else t) = t := by
    intro t ht
    have hne := ids_bne_of_not_mem h t ht
    rw [bne_iff_ne] at hne
    simp [hne]
  rw [List.map_congr_left step, List.map_id']

/-- `toggleTodo` never changes any id. -/
theorem toggle_ids (i : String) (L : List Todo) :
    idsOf (toggleTodo i L) = idsOf L := by
  rw [toggleTodo, idsOf, List.map_map, idsOf]
  apply List.map_congr_left
  intro t _
  by_cases h : t.id = i <;> simp [h]


/-- C1 counterexample: a stored array whose element mismatches the
TodoItem shape (a bare number) is not treated as total absence — `load`
returns the element unvalidated (`saved as Todo[]` performs no runtime
check), so the result is not the empty list. -/
theorem c1_counterexample :
    load (Stored.parsed (Json.arr [Json.num 1])) = [Json.num 1] ∧
    load (Stored.parsed (Json.arr [Json.num 1])) ≠ ([] : List Json) := by
  exact ⟨rfl, by simp [load]⟩

/-- C1 (amended): `load` is total (never raises); an absent blob, a blob
rejected by the JSON parser, and a blob parsing to a non-array value all
yield the empty list — total absence at the top-level shape; but a parsed
array is returned whole with no per-element validation, so an element-level
shape mismatch passes through instead of collapsing to the empty list. -/
theorem c1_load_resilience :
    load Stored.absent = [] ∧
    load Stored.malformed = [] ∧
    (∀ j : Json, j.isArr = false → load (Stored.parsed j) = []) ∧
    (∀ xs : List Json, load (Stored.parsed (Json.arr xs)) = xs) := by
  refine ⟨rfl, rfl, ?_, fun xs => rfl⟩
  intro j h
  cases j <;> first
    | rfl
    | exact absurd h (by simp [Json.isArr])

/-- C1 witness: the amended theorem applied to a concrete non-array blob. -/
theorem c1_witness : load (Stored.parsed (Json.num 7)) = [] :=
  c1_load_resilience.2.2.1 (Json.num 7) rfl

/-- C2: loading what `write` stored reconstructs the list field-for-field
with order (and length) preserved: consuming each loaded element as a Todo
yields exactly the original items in the original order. -/
theorem c2_load_write_roundtrip (L : List Todo) :
    (load (write L)).map readTodo = L.map some ∧
    (load (write L)).length = L.length := by
  have h : load (write L) = L.map todoToJson := rfl
  rw [h, List.map_map, List.length_map]
  exact ⟨List.map_congr_left (fun t _ => readTodo_todoToJson t), rfl⟩

/-- C3: `addTodo` prepends exactly one item carrying the given title, the
generated id and `completed := false`; the tail is the previous list,
unchanged and in order; and adding "A" then "B" to the empty list yields
[B, A]. -/
theorem c3_add_prepends (g s : String) (L : List Todo) :
    (addTodo g s L).length = L.length + 1 ∧
    (addTodo g s L).head? = some { id := g, title := s, completed := false } ∧
    (addTodo g s L).tail = L ∧
    addTodo "gB" "B" (addTodo "gA" "A" []) =
      [{ id := "gB", title := "B", completed := false },
       { id := "gA", title := "A", completed := false }] :=
  ⟨rfl, rfl, rfl, rfl⟩

/-- C4: `toggleTodo i` rewrites the list position by position, flipping
`completed` exactly at the items whose id matches and keeping every other
item — so the order and all non-matching items are unchanged — and when no
id matches the list is returned unchanged. -/
theorem c4_toggle_behavior (i : String) (L : List Todo) :
    List.Forall₂
      (fun a b => b = if a.id = i then { a with completed := !a.completed } else a)
      L (toggleTodo i L) ∧
    (i ∉ idsOf L → toggleTodo i L = L) :=
  ⟨toggle_pointwise i L, toggle_miss i L⟩

/-- C4 witness: toggling a missing id on a concrete list is a no-op. -/
theorem c4_witness :
    toggleTodo "z" [⟨"a", "A", false⟩] = [⟨"a", "A", false⟩] :=
  (c4_toggle_behavior "z" [⟨"a", "A", false⟩]).2 (by decide)

/-- C5: removing an absent id is a no-op, and removing the sole occurrence
of an id deletes exactly that item, keeping the items before and after it
in their relative order. -/
theorem c5_remove_behavior (i : String) (L pre suf : List Todo) (t : Todo) :
    (i ∉ idsOf L → removeTodo i L = L) ∧
    (t.id = i → i ∉ idsOf pre → i ∉ idsOf suf →
      removeTodo i (pre ++ t :: suf) = pre ++ suf) :=
  ⟨remove_miss i L, remove_decomp i pre suf t⟩

/-- C5 witness: removing B from [A, B, C] yields [A, C]; removing a
missing id leaves the list unchanged. -/
theorem c5_witness :
    removeTodo "b" [⟨"a", "A", false⟩, ⟨"b", "B", false⟩, ⟨"c", "C", false⟩]
      = [⟨"a", "A", false⟩, ⟨"c", "C", false⟩] ∧
    removeTodo "z" [⟨"a", "A", false⟩] = [⟨"a", "A", false⟩] :=
  ⟨(c5_remove_behavior "b" [] [⟨"a", "A", false⟩] [⟨"c", "C", false⟩]
      ⟨"b", "B", false⟩).2 rfl (by decide) (by decide),
   (c5_remove_behavior "z" [⟨"a", "A", false⟩] [] [] ⟨"x", "X", false⟩).1
      (by decide)⟩

/-- C6: toggling the same id twice returns the original list: the matched
items get their flag flipped twice and every other item is untouched. -/
theorem c6_toggle_involution (i : String) (L : List Todo) :
    toggleTodo i (toggleTodo i L) = L := by
  rw [toggleTodo, toggleTodo, List.map_map]
  have step : ∀ t ∈ L,
      ((fun t : Todo =>
          if t.id == i then { t with completed := !t.completed } else t) ∘
       (fun t : Todo =>
          if t.id == i then { t with completed := !t.completed } else t)) t = t := by
    intro t _
    by_cases h : t.id = i
    · subst h
      simp [Function.comp]
    · simp [Function.comp, h]
  rw [List.map_congr_left step, List.map_id']

/-- `removeTodo` keeps a sublist of the ids. -/
theorem remove_ids_sublist (i : String) (L : List Todo) :
    (idsOf (removeTodo i L)).Sublist (idsOf L) :=
  (List.filter_sublist L).map Todo.id

/-- Sequencing fresh adds over a list with distinct ids keeps the ids
distinct: each supplied id is new for the list and the supplied ids are
pairwise distinct among themselves. -/
theorem addAll_nodup (entries : List (String × String)) :
    ∀ L : List Todo, (idsOf L).Nodup → (entries.map Prod.fst).Nodup →
      (∀ p ∈ entries, p.1 ∉ idsOf L) → (idsOf (addAll entries L)).Nodup := by
  induction entries with
  | nil => intro L hL _ _; exact hL
  | cons e rest ih =>
    intro L hL hfst hfresh
    rw [List.map_cons, List.nodup_cons] at hfst
    refine ih (addTodo e.1 e.2 L) ?_ hfst.2 ?_
    · exact List.nodup_cons.mpr ⟨hfresh e (List.mem_cons_self e rest), hL⟩
    · intro p hp hmem
      rcases List.mem_cons.mp hmem with hc | hc
      · have hm : e.1 ∈ rest.map Prod.fst := by
          rw [← show p.1 = e.1 from hc]
          exact List.mem_map_of_mem Prod.fst hp
        exact hfst.1 hm
      · exact hfresh p (List.mem_cons_of_mem e hp) hc

/-- C7: pairwise-distinct ids are an invariant. A fresh id keeps `addTodo`
duplicate-free; `toggleTodo` and `removeTodo` preserve distinctness;
loading what `write` stored yields elements with pairwise distinct id
fields; and any sequence of fresh `addTodo` calls keeps the ids pairwise
distinct. Freshness of each generated id is the explicit hypothesis that
models the id generator contract (unique with overwhelming probability). -/
theorem c7_id_uniqueness (g s i : String) (L : List Todo)
    (entries : List (String × String)) :
    ((idsOf L).Nodup → g ∉ idsOf L → (idsOf (addTodo g s L)).Nodup) ∧
    ((idsOf L).Nodup → (idsOf (toggleTodo i L)).Nodup) ∧
    ((idsOf L).Nodup → (idsOf (removeTodo i L)).Nodup) ∧
    ((idsOf L).Nodup →
      ((load (write L)).map (fun j => j.getField "id")).Nodup) ∧
    ((idsOf L).Nodup → (entries.map Prod.fst).Nodup →
      (∀ p ∈ entries, p.1 ∉ idsOf L) → (idsOf (addAll entries L)).Nodup) := by
  refine ⟨?_, ?_, ?_, ?_, fun h1 h2 h3 => addAll_nodup entries L h1 h2 h3⟩
  · intro hL hg
    exact List.nodup_cons.mpr ⟨hg, hL⟩
  · intro hL
    rw [toggle_ids]
    exact hL
  · intro hL
    exact (remove_ids_sublist i L).nodup hL
  · intro hL
    have h : (load (write L)).map (fun j => j.getField "id") =
        (idsOf L).map (fun x => some (Json.str x)) := by
      show (L.map todoToJson).map (fun j => j.getField "id") =
        (L.map Todo.id).map (fun x => some (Json.str x))
      rw [List.map_map, List.map_map]
      rfl
    rw [h]
    exact hL.map (fun a b hab => by
      simpa using congrArg (fun o => o.getD (Json.str "")) hab)

/-- C7 witness: the invariant components applied at concrete lists. -/
theorem c7_witness :
    (idsOf (addTodo "b" "B" [⟨"a", "A", false⟩])).Nodup ∧
    (idsOf (toggleTodo "a" [⟨"a", "A", false⟩])).Nodup ∧
    (idsOf (removeTodo "a" [⟨"a", "A", false⟩])).Nodup ∧
    ((load (write [⟨"a", "A", false⟩])).map (fun j => j.getField "id")).Nodup ∧
    (idsOf (addAll [("b", "B"), ("c", "C")] [⟨"a", "A", false⟩])).Nodup :=
  ⟨(c7_id_uniqueness "b" "B" "a" [⟨"a", "A", false⟩] []).1
      (by decide) (by decide),
   (c7_id_uniqueness "b" "B" "a" [⟨"a", "A", false⟩] []).2.1 (by decide),
   (c7_id_uniqueness "b" "B" "a" [⟨"a", "A", false⟩] []).2.2.1 (by decide),
   (c7_id_uniqueness "b" "B" "a" [⟨"a", "A", false⟩] []).2.2.2.1 (by decide),
   (c7_id_uniqueness "b" "B" "a" [⟨"a", "A", false⟩]
      [("b", "B"), ("c", "C")]).2.2.2.2 (by decide) (by decide) (by decide)⟩

/-- C8: the rendered pair is the completed count and the total, both pure
functions of the current list — the count of items with `completed = true`
and the length — recomputed from the snapshot, never stored. -/
theorem c8_done_display_derived (L : List Todo) :
    doneDisplay L = ((L.countP fun t => t.completed), L.length) := by
  simp [doneDisplay, completedCount, List.countP_eq_length_filter]

/-- Trimming a string made only of whitespace yields the empty string. -/
theorem jsTrim_of_all_ws (s : String) (h : s.data.all jsWhitespace = true) :
    jsTrim s = "" := by
  rw [jsTrim]
  have h1 : s.data.dropWhile jsWhitespace = [] :=
    List.dropWhile_eq_nil_iff.mpr (fun x hx => List.all_eq_true.mp h x hx)
  rw [h1]
  rfl

/-- C9: the form handler trims and rejects blanks before calling the store:
a whitespace-only input (the empty string included) leaves both the list
and the input field unchanged and `addTodo` is not invoked, while an input
with a non-blank trim calls `addTodo` with exactly that non-empty trimmed
title and clears the field. -/
theorem c9_blank_input_rejected (g v : String) (L : List Todo) :
    (v.data.all jsWhitespace = true → onSubmit g v L = (L, v)) ∧
    (jsTrim v ≠ "" → onSubmit g v L = (addTodo g (jsTrim v) L, "")) := by
  constructor
  · intro h
    rw [onSubmit]
    simp [jsTrim_of_all_ws v h]
  · intro h
    rw [onSubmit]
    simp [h]

/-- C9 witness: a whitespace-only submission — here a space, a no-break
space U+00A0 and a tab — is ignored; a padded title is added trimmed. -/
theorem c9_witness :
    onSubmit "g1" "  \t" [] = ([], "  \t") ∧
    onSubmit "g2" " hi " [] = ([⟨"g2", "hi", false⟩], "") :=
  ⟨(c9_blank_input_rejected "g1" "  \t" []).1 (by decide),
   (c9_blank_input_rejected "g2" " hi " []).2 (by decide)⟩

/-- C10: with duplicate ids in the list (possible since `load` validates
no elements), `removeTodo` deletes every item carrying the id — nothing
with that id survives, and every item with a different id survives — and
`toggleTodo` flips every item carrying the id, not just the first match;
the two concrete equalities exercise lists with a duplicated id. -/
theorem c10_duplicate_ids (i : String) (L : List Todo) :
    (∀ t ∈ removeTodo i L, ¬ t.id = i) ∧
    (∀ t ∈ L, ¬ t.id = i → t ∈ removeTodo i L) ∧
    List.Forall₂
      (fun a b => b = if a.id = i then { a with completed := !a.completed } else a)
      L (toggleTodo i L) ∧
    removeTodo "d" [⟨"d", "x", false⟩, ⟨"e", "y", false⟩, ⟨"d", "z", true⟩]
      = [⟨"e", "y", false⟩] ∧
    toggleTodo "d" [⟨"d", "x", false⟩, ⟨"d", "z", true⟩]
      = [⟨"d", "x", true⟩, ⟨"d", "z", false⟩] := by
  refine ⟨?_, ?_, toggle_pointwise i L, by decide, by decide⟩
  · intro t ht
    have hp := List.of_mem_filter ht
    rw [bne_iff_ne] at hp
    exact hp
  · intro t ht h
    exact List.mem_filter.mpr ⟨ht, bne_iff_ne.mpr h⟩

/-- C10 witness: in a list where the id "d" occurs twice, the surviving
item of `removeTodo "d"` has a different id and an item with a different
id does survive. -/
theorem c10_witness :
    ¬ (Todo.mk "e" "y" false).id = "d" ∧
    Todo.mk "e" "y" false ∈
      removeTodo "d" [⟨"d", "x", false⟩, ⟨"e", "y", false⟩, ⟨"d", "z", true⟩] :=
  ⟨(c10_duplicate_ids "d"
      [⟨"d", "x", false⟩, ⟨"e", "y", false⟩, ⟨"d", "z", true⟩]).1
      ⟨"e", "y", false⟩ (by decide),
   (c10_duplicate_ids "d"
      [⟨"d", "x", false⟩, ⟨"e", "y", false⟩, ⟨"d", "z", true⟩]).2.1
      ⟨"e", "y", false⟩ (by decide) (by decide)⟩
